import Mathlib

/-!
Verification development for the eatthepie draw-orchestration bots.

The repository holds three JavaScript programs:
* `update-game-bot/bot.js` (first document): the autonomous controller with
  funding-retried `initiateDraw`, `setRandomAndWinningNumbers`,
  `calculatePayouts`, a social-media notifier, the adaptive interval table,
  `checkAndProcessGame`, and the single-shot `processSpecificGame`;
* the VDF-variant bot (second document of `bot.js`): simulate-then-send
  `initiateDraw`, `setRandao`, `submitVDFProof`, and a `calculatePayouts`
  that terminates the process on an "already calculated" rejection;
* `unnamed/part_000`: the single-game bot with the same funding-retried
  `initiateDraw` and a `checkGameFlow` cycle.

Every definition below is a shallow embedding of one of those source
functions; external effects (chain reads, transaction submission, HTTP,
sleeps) are passed in as explicit result values and recorded in traces.
-/

namespace EatThePie

/-! ## String helpers

JavaScript's `String.prototype.includes` and `toLowerCase`, modelled on the
character list of a Lean `String`. -/

/-- JS `s.includes(pat)`: `pat` occurs as a contiguous substring of `s`. -/
def strContains (s pat : String) : Bool :=
  decide (pat.data <:+: s.data)

/-- JS `s.toLowerCase()` (ASCII case folding, which is all the classified
rejection strings use). -/
def strLower (s : String) : String :=
  String.mk (s.data.map Char.toLower)

/-! ## Rejection values

A JS rejection carries `error.message` and possibly `error.cause.reason`;
`bot.js` reads `error?.cause?.reason || error.message` (JS `||` falls through
on the empty string). -/

/-- A raw rejection as the bots observe it. -/
structure RawError where
  message : String
  causeReason : Option String
deriving DecidableEq, Repr

/-- `error?.cause?.reason || error.message` from `initiateDraw` in
`bot.js` line 119 / `part_000` line 94. -/
def rawReason (e : RawError) : String :=
  match e.causeReason with
  | some r => if r = "" then e.message else r
  | none => e.message

/-! ## Funding retry policy (`initiateDraw`, `bot.js` 104-132 and
`part_000` 72-112)

Candidate amounts are taken in wei (1 ETH = 10^18 wei), so the JS float
literals become exact naturals. -/

/-- `config.WITNET_FUNDING_ATTEMPTS = [0.000001, 0.0000005, 0.000005]` ETH,
in wei (`bot.js` line 22, `part_000` line 23). -/
def WITNET_FUNDING_ATTEMPTS : List Nat :=
  [1000000000000, 500000000000, 5000000000000]

/-- Outcome of one `walletClient.writeContract` attempt. -/
inductive AttemptResult where
  | success (hash : Nat)
  | failure (e : RawError)
deriving DecidableEq, Repr

/-- Error outcome of the funding-retry wrapper: a rethrown non-funding
rejection, or the fatal exhaustion error of `bot.js` line 131. -/
inductive DrawError where
  | fatal (e : RawError)
  | exhausted
deriving DecidableEq, Repr

/-- The retryable-funding classifier of `bot.js` lines 122-126: the
lower-cased reason contains one of the three fixed substrings. -/
def isRetryableFundingMsg (msg : String) : Bool :=
  strContains (strLower msg) "value not enough" ||
  strContains (strLower msg) "insufficient" ||
  strContains (strLower msg) "underpriced"

/-- The retry loop of `initiateDraw`: attempt each candidate amount in list
order; return the first success; rethrow a non-retryable rejection at once;
raise `exhausted` after the last candidate. The second component records the
amounts actually attempted, in order. -/
def initiateDrawGo (exec : Nat → AttemptResult) : List Nat → Except DrawError Nat × List Nat
  | [] => (.error .exhausted, [])
  | a :: rest =>
    match exec a with
    | .success h => (.ok h, [a])
    | .failure e =>
      if isRetryableFundingMsg (rawReason e) then
        let r := initiateDrawGo exec rest
        (r.1, a :: r.2)
      else
        (.error (.fatal e), [a])

/-- `initiateDraw` run on the configured candidate list. -/
def initiateDraw (exec : Nat → AttemptResult) : Except DrawError Nat × List Nat :=
  initiateDrawGo exec WITNET_FUNDING_ATTEMPTS

/-- The amounts the retry loop attempts form a prefix of the candidate list:
candidates are consumed strictly in list order from the first. -/
lemma initiateDrawGo_attempts_ordered (exec : Nat → AttemptResult) :
    ∀ cands : List Nat, (initiateDrawGo exec cands).2 <+: cands := by
  intro cands
  induction cands with
  | nil => exact List.nil_prefix
  | cons a rest ih =>
    have step : initiateDrawGo exec (a :: rest)
        = (match exec a with
           | AttemptResult.success h => (Except.ok h, [a])
           | AttemptResult.failure e =>
             if isRetryableFundingMsg (rawReason e) = true then
               ((initiateDrawGo exec rest).1, a :: (initiateDrawGo exec rest).2)
             else (Except.error (DrawError.fatal e), [a])) := rfl
    rw [step]
    cases hx : exec a with
    | success h => exact ⟨rest, rfl⟩
    | failure e =>
      by_cases hr : isRetryableFundingMsg (rawReason e) = true
      · simp only [hr, if_true]
        obtain ⟨t, ht⟩ := ih
        exact ⟨t, by rw [List.cons_append, ht]⟩
      · simp only [if_neg hr]
        exact ⟨rest, rfl⟩

/-- If every candidate is rejected with a retryable-funding message, the loop
attempts all of them and raises the fatal exhaustion error. -/
lemma initiateDrawGo_exhausts (exec : Nat → AttemptResult) :
    ∀ cands : List Nat,
      (∀ b ∈ cands, ∃ e, exec b = .failure e ∧ isRetryableFundingMsg (rawReason e) = true) →
      initiateDrawGo exec cands = (.error .exhausted, cands) := by
  intro cands
  induction cands with
  | nil => intro _; rfl
  | cons a rest ih =>
    intro hall
    obtain ⟨e, he, hr⟩ := hall a (List.mem_cons_self a rest)
    have hrest := ih (fun b hb => hall b (List.mem_cons_of_mem a hb))
    have step : initiateDrawGo exec (a :: rest)
        = (match exec a with
           | AttemptResult.success h => (Except.ok h, [a])
           | AttemptResult.failure e =>
             if isRetryableFundingMsg (rawReason e) = true then
               ((initiateDrawGo exec rest).1, a :: (initiateDrawGo exec rest).2)
             else (Except.error (DrawError.fatal e), [a])) := rfl
    rw [step, he]
    simp only [hr, if_true]
    rw [hrest]

/-- C1: the funding retry wrapper around draw initiation attempts the
configured candidate amounts strictly in list order starting from the first
(the attempted amounts are a prefix of the candidate list); a rejection whose
reason matches one of the case-insensitive substrings "value not enough",
"insufficient", "underpriced" advances to the next candidate; any other
rejection is rethrown at once with no further attempts; the first success
returns its transaction hash with no further attempts; and rejection of every
candidate with a retryable-funding message raises the fatal
funding-exhausted error. -/
theorem initiateDraw_funding_retry_policy (exec : Nat → AttemptResult)
    (a : Nat) (rest cands : List Nat) :
    ((initiateDrawGo exec cands).2 <+: cands)
    ∧ (∀ h : Nat, exec a = .success h →
        initiateDrawGo exec (a :: rest) = (.ok h, [a]))
    ∧ (∀ e : RawError, exec a = .failure e →
        isRetryableFundingMsg (rawReason e) = true →
        initiateDrawGo exec (a :: rest) =
          ((initiateDrawGo exec rest).1, a :: (initiateDrawGo exec rest).2))
    ∧ (∀ e : RawError, exec a = .failure e →
        isRetryableFundingMsg (rawReason e) = false →
        initiateDrawGo exec (a :: rest) = (.error (.fatal e), [a]))
    ∧ ((∀ b ∈ cands, ∃ e, exec b = .failure e ∧
          isRetryableFundingMsg (rawReason e) = true) →
        initiateDrawGo exec cands = (.error .exhausted, cands)) := by
  have step : initiateDrawGo exec (a :: rest)
      = (match exec a with
         | AttemptResult.success h => (Except.ok h, [a])
         | AttemptResult.failure e =>
           if isRetryableFundingMsg (rawReason e) = true then
             ((initiateDrawGo exec rest).1, a :: (initiateDrawGo exec rest).2)
           else (Except.error (DrawError.fatal e), [a])) := rfl
  refine ⟨initiateDrawGo_attempts_ordered exec cands, ?_, ?_, ?_, initiateDrawGo_exhausts exec cands⟩
  · intro h he
    rw [step, he]
  · intro e he hr
    rw [step, he]
    simp only [hr, if_true]
  · intro e he hr
    rw [step, he]
    simp only [hr, Bool.false_eq_true, if_false]

/-- A mock executor rejecting the first two candidates with "insufficient
funds" and accepting the third. -/
def mockFundingExec : Nat → AttemptResult := fun a =>
  if a = 30 then .success 9 else .failure ⟨"insufficient funds", none⟩

/-- Concrete run of the funding retry policy: candidates `[10, 20, 30]` with
`mockFundingExec` succeed on the third amount after attempting all three in
order, and an executor rejecting everything as underpriced exhausts the
candidate list. -/
theorem initiateDraw_funding_retry_policy_witness :
    initiateDrawGo mockFundingExec [10, 20, 30] = (.ok 9, [10, 20, 30])
    ∧ initiateDrawGo (fun _ => .failure ⟨"transaction underpriced", none⟩) [10, 20]
        = (.error .exhausted, [10, 20]) := by
  constructor
  · have h1 := (initiateDraw_funding_retry_policy mockFundingExec 10 [20, 30] []).2.2.1
      ⟨"insufficient funds", none⟩ rfl (by decide)
    have h2 := (initiateDraw_funding_retry_policy mockFundingExec 20 [30] []).2.2.1
      ⟨"insufficient funds", none⟩ rfl (by decide)
    have h3 := (initiateDraw_funding_retry_policy mockFundingExec 30 [] []).2.1 9 rfl
    rw [h1, h2, h3]
  · exact (initiateDraw_funding_retry_policy
      (fun _ => .failure ⟨"transaction underpriced", none⟩) 0 [] [10, 20]).2.2.2.2
      (fun b _ => ⟨⟨"transaction underpriced", none⟩, rfl, by decide⟩)

/-! ## Ledger operation traces (claim about simulate-before-broadcast)

Each write helper is modelled together with the sequence of ledger
operations it performs: `sim ok` is a `publicClient.simulateContract` call
that succeeded (`ok = true`) or threw (`ok = false`); `send` is a
`walletClient.writeContract` broadcast attempt. -/

/-- One ledger-facing operation of a write helper. -/
inductive LedgerOp where
  | sim (ok : Bool)
  | send
deriving DecidableEq, Repr

/-- Every broadcast in the trace is preceded by a successful simulation. -/
def simBeforeSendAux (seen : Bool) : List LedgerOp → Bool
  | [] => true
  | .sim ok :: rest => simBeforeSendAux (seen || ok) rest
  | .send :: rest => seen && simBeforeSendAux seen rest

/-- Every `send` in the trace has an earlier successful `sim`. -/
def simBeforeSend (ops : List LedgerOp) : Bool :=
  simBeforeSendAux false ops

/-- The simulate-then-send skeleton shared by `setRandomAndWinningNumbers`,
`calculatePayouts` (`bot.js` 137-151, 156-177; `part_000` 117-131, 136-158)
and the VDF-variant writers: `simulateContract` first, `writeContract` only
if the simulation succeeded. Returns the raw outcome and the operation
trace. -/
def simulateThenSend (sim : Except RawError Unit) (send : Except RawError Nat) :
    Except RawError Nat × List LedgerOp :=
  match sim with
  | .error e => (.error e, [.sim false])
  | .ok _ =>
    match send with
    | .ok h => (.ok h, [.sim true, .send])
    | .error e => (.error e, [.sim true, .send])

/-- The operation trace of the funding-retried `initiateDraw` (`bot.js`
104-132, `part_000` 72-112): each attempted candidate amount is a direct
`walletClient.writeContract` broadcast; the loop never simulates. -/
def initiateDrawOps (exec : Nat → AttemptResult) (cands : List Nat) : List LedgerOp :=
  (initiateDrawGo exec cands).2.map (fun _ => LedgerOp.send)

/-- `setRandomAndWinningNumbers` (`bot.js` 137-151): simulate-then-send,
wrapping any rejection message. -/
def setRandomAndWinningNumbers (sim : Except RawError Unit) (send : Except RawError Nat) :
    Except String Nat × List LedgerOp :=
  match simulateThenSend sim send with
  | (.ok h, ops) => (.ok h, ops)
  | (.error e, ops) =>
    (.error ("Failed to set random/winning numbers: " ++ e.message), ops)

/-! ## `calculatePayouts` variants (recognised no-op classification) -/

/-- Observable outcome of a `calculatePayouts` call. -/
inductive CalcOutcome where
  | txHash (h : Nat)
  | nullNoop
  | raised (msg : String)
  | exitProcess (code : Nat)
deriving DecidableEq, Repr

/-- The "payouts already calculated" test of `bot.js` 168-171:
`error.message.includes(pat) || error?.cause?.reason?.includes(pat)`. -/
def matchesAlreadyCalculated (pat : String) (e : RawError) : Bool :=
  strContains e.message pat ||
  (match e.causeReason with
   | some r => strContains r pat
   | none => false)

/-- `calculatePayouts` of the main bot (`bot.js` 156-177): a rejection whose
message or cause contains "Payouts already calculated" returns `null`;
any other rejection is raised. The second component is the ledger trace. -/
def calculatePayouts_main (sim : Except RawError Unit) (send : Except RawError Nat) :
    CalcOutcome × List LedgerOp :=
  match simulateThenSend sim send with
  | (.ok h, ops) => (.txHash h, ops)
  | (.error e, ops) =>
    if matchesAlreadyCalculated "Payouts already calculated" e then
      (.nullNoop, ops)
    else
      (.raised ("Failed to calculate payouts: " ++ e.message), ops)

/-- `calculatePayouts` of the single-game bot (`part_000` 136-158): same as
the main bot but matching the full "Payouts already calculated for this
game" string. -/
def calculatePayouts_part (sim : Except RawError Unit) (send : Except RawError Nat) :
    CalcOutcome × List LedgerOp :=
  match simulateThenSend sim send with
  | (.ok h, ops) => (.txHash h, ops)
  | (.error e, ops) =>
    if matchesAlreadyCalculated "Payouts already calculated for this game" e then
      (.nullNoop, ops)
    else
      (.raised ("Failed to calculate payouts: " ++ e.message), ops)

/-- `calculatePayouts` of the VDF-variant bot (`bot.js` second document,
660-683): a rejection whose message contains "Payouts already calculated for
this game" terminates the process with exit code 0 (`process.exit(0)`)
instead of returning; any other rejection is raised. -/
def calculatePayouts_vdf (sim : Except RawError Unit) (send : Except RawError Nat) :
    CalcOutcome × List LedgerOp :=
  match simulateThenSend sim send with
  | (.ok h, ops) => (.txHash h, ops)
  | (.error e, ops) =>
    if strContains e.message "Payouts already calculated for this game" then
      (.exitProcess 0, ops)
    else
      (.raised ("Failed to calculate payouts: " ++ e.message), ops)

/-! ## Interval table and adaptive scheduler (`bot.js` 31-38, 228-256) -/

def INTERVALS_FAR_FROM_DRAW : Nat := 60
def INTERVALS_APPROACHING_DRAW : Nat := 30
def INTERVALS_CLOSE_TO_DRAW : Nat := 10
def INTERVALS_VERY_CLOSE : Nat := 2
def INTERVALS_DRAWING_IN_PROGRESS : Nat := 1
def INTERVALS_WAITING_FOR_RANDOM : Nat := 5

/-- `calculateInterval(status, timeUntilDraw, randomValue)` (`bot.js`
228-256). `timeUntilDraw` is in seconds; the JS float division
`timeUntilDraw / 3600` is modelled exactly over the rationals. -/
def calculateInterval (status : Nat) (timeUntilDraw : Int) (randomValue : Nat) : Nat :=
  if status = 1 then
    if randomValue = 0 then INTERVALS_WAITING_FOR_RANDOM
    else INTERVALS_DRAWING_IN_PROGRESS
  else if status = 0 then
    let hoursUntilDraw : ℚ := (timeUntilDraw : ℚ) / 3600
    if 12 < hoursUntilDraw then INTERVALS_FAR_FROM_DRAW
    else if 2 < hoursUntilDraw then INTERVALS_APPROACHING_DRAW
    else if 1 / 2 < hoursUntilDraw then INTERVALS_CLOSE_TO_DRAW
    else INTERVALS_VERY_CLOSE
  else INTERVALS_FAR_FROM_DRAW

/-! ## The autonomous controller cycle (`bot.js` 277-421)

`checkAndProcessGame` is modelled as a pure function of the controller state
(`activeDrawingGame`, `notifiedGames`) and a cycle environment supplying the
outcome of every external interaction of one cycle. Throws are `Except`
errors; the top-level `catch` of `bot.js` 417-420 turns them into the
longest backoff interval. A trace records the dispatch target and every
write-transaction, notification and settle-sleep performed. -/

/-- `getCurrentGameInfo()` result (the fields the control flow reads). -/
structure CurrentInfo where
  gameNumber : Nat
  timeUntilDraw : Int
deriving DecidableEq, Repr

/-- `getDetailedGameInfo(id)` result (the fields the control flow reads);
`randomValue = 0` is the unset-seed sentinel. -/
structure DetailedInfo where
  status : Nat
  randomValue : Nat
deriving DecidableEq, Repr

/-- Results of the external calls one cycle can make. -/
structure CycleEnv where
  current : Except String CurrentInfo
  detailed : Nat → Except String DetailedInfo
  initiateDrawR : Except String Nat
  setRandomR : Nat → Except String Nat
  calcPayoutsR : Nat → Except String (Option Nat)
  notifyR : Nat → Except String Unit
  currentAfterComplete : Except String CurrentInfo

/-- Controller state: `activeDrawingGame` (`bot.js` 280) and
`notifiedGames` (`bot.js` 277). -/
structure BotState where
  active : Option Nat
  notified : List Nat
deriving DecidableEq, Repr

/-- What one cycle did: the id whose `DetailedState` drove the dispatch,
the writes submitted, notification attempts and settle sleeps. -/
structure CycleTrace where
  target : Option Nat
  initiateCalls : Nat
  setRandomCalls : List Nat
  calcPayoutsCalls : List Nat
  notifyAttempts : List Nat
  settleSleepsMs : List Nat
deriving DecidableEq, Repr

/-- The empty trace at the start of a cycle. -/
def CycleTrace.empty : CycleTrace := ⟨none, 0, [], [], [], []⟩

/-- The completion-notification gate (`bot.js` 331-340 and 396-405): if the
id is not yet in `notifiedGames`, sleep 3000 ms, call the notifier, and add
the id only when the call succeeded; a failed call is logged and swallowed.
Returns the new notified list, the attempts made and the sleeps taken. -/
def notifyGate (r : Except String Unit) (g : Nat) (notified : List Nat) :
    List Nat × List Nat × List Nat :=
  if notified.contains g then (notified, [], [])
  else
    match r with
    | .ok _ => (g :: notified, [g], [3000])
    | .error _ => (notified, [g], [3000])

/-- The dispatch of `bot.js` 347-415: read `getDetailedGameInfo(gameNum)`
and act on its status. `ci` is the `getCurrentGameInfo()` read from the top
of the cycle (its `timeUntilDraw` gates draw initiation). Errors carry the
state and trace at the point of the throw. -/
def processGame (env : CycleEnv) (ci : CurrentInfo) (gameNum : Nat)
    (s : BotState) (tr : CycleTrace) :
    Except (String × BotState × CycleTrace) (Nat × BotState × CycleTrace) :=
  match env.detailed gameNum with
  | .error msg => .error (msg, s, tr)
  | .ok info =>
    let tr := { tr with target := some gameNum }
    if info.status = 0 then
      if ci.timeUntilDraw ≤ 0 then
        let tr := { tr with initiateCalls := tr.initiateCalls + 1 }
        match env.initiateDrawR with
        | .ok _ =>
          .ok (INTERVALS_DRAWING_IN_PROGRESS, { s with active := some gameNum }, tr)
        | .error msg => .error (msg, s, tr)
      else
        .ok (calculateInterval info.status ci.timeUntilDraw info.randomValue, s, tr)
    else if info.status = 1 then
      let s := { s with active := some gameNum }
      if info.randomValue = 0 then
        let tr := { tr with setRandomCalls := tr.setRandomCalls ++ [gameNum] }
        match env.setRandomR gameNum with
        | .ok _ => .ok (INTERVALS_WAITING_FOR_RANDOM, s, tr)
        | .error msg =>
          if strContains msg "Random number not yet available" then
            .ok (INTERVALS_WAITING_FOR_RANDOM, s, tr)
          else
            .error (msg, s, tr)
      else
        let tr := { tr with calcPayoutsCalls := tr.calcPayoutsCalls ++ [gameNum] }
        match env.calcPayoutsR gameNum with
        | .ok _ => .ok (INTERVALS_DRAWING_IN_PROGRESS, s, tr)
        | .error msg => .error (msg, s, tr)
    else if info.status = 2 then
      let gate := notifyGate (env.notifyR gameNum) gameNum s.notified
      let s := { s with notified := gate.1 }
      let tr := { tr with
        notifyAttempts := tr.notifyAttempts ++ gate.2.1,
        settleSleepsMs := tr.settleSleepsMs ++ gate.2.2 }
      match env.currentAfterComplete with
      | .error msg => .error (msg, s, tr)
      | .ok _ =>
        .ok (calculateInterval info.status ci.timeUntilDraw info.randomValue, s, tr)
    else
      .ok (calculateInterval info.status ci.timeUntilDraw info.randomValue, s, tr)

/-- The body of `checkAndProcessGame` (`bot.js` 285-416) before the
top-level catch: the active-draw override of lines 294-345, then the
dispatch on the current game. -/
def cycleBody (env : CycleEnv) (s : BotState) :
    Except (String × BotState × CycleTrace) (Nat × BotState × CycleTrace) :=
  match env.current with
  | .error msg => .error (msg, s, CycleTrace.empty)
  | .ok ci =>
    match s.active with
    | none => processGame env ci ci.gameNumber s CycleTrace.empty
    | some g =>
      match env.detailed g with
      | .error msg => .error (msg, s, CycleTrace.empty)
      | .ok ag =>
        if ag.status = 2 then
          let gate := notifyGate (env.notifyR g) g s.notified
          let s2 : BotState := { active := none, notified := gate.1 }
          let tr : CycleTrace := { CycleTrace.empty with
            notifyAttempts := gate.2.1, settleSleepsMs := gate.2.2 }
          processGame env ci ci.gameNumber s2 tr
        else
          let tr : CycleTrace := { CycleTrace.empty with target := some g }
          if ag.status = 1 then
            if ag.randomValue = 0 then
              let tr := { tr with setRandomCalls := [g] }
              match env.setRandomR g with
              | .ok _ => .ok (INTERVALS_WAITING_FOR_RANDOM, s, tr)
              | .error msg =>
                if strContains msg "Random number not yet available" then
                  .ok (INTERVALS_WAITING_FOR_RANDOM, s, tr)
                else
                  .error (msg, s, tr)
            else
              let tr := { tr with calcPayoutsCalls := [g] }
              match env.calcPayoutsR g with
              | .ok _ => .ok (INTERVALS_DRAWING_IN_PROGRESS, s, tr)
              | .error msg => .error (msg, s, tr)
          else
            .ok (INTERVALS_DRAWING_IN_PROGRESS, s, tr)

/-- `checkAndProcessGame` with its top-level catch (`bot.js` 417-420): an
uncaught throw is logged and turned into the longest backoff interval. -/
structure CycleResult where
  interval : Nat
  state : BotState
  trace : CycleTrace
  errored : Bool
deriving DecidableEq, Repr

def checkAndProcessGame (env : CycleEnv) (s : BotState) : CycleResult :=
  match cycleBody env s with
  | .ok (i, s2, tr) => ⟨i, s2, tr, false⟩
  | .error (_, s2, tr) => ⟨60, s2, tr, true⟩

/-- The continuous main loop's state evolution over a list of cycle
environments (`bot.js` 522-532). -/
def runCycles (envs : List CycleEnv) (s : BotState) : BotState :=
  envs.foldl (fun st env => (checkAndProcessGame env st).state) s

/-! ## Single-shot mode: `processSpecificGame` (`bot.js` 426-480) -/

/-- External-call results for one iteration of the single-shot loop. -/
structure SSEnv where
  detailed : Except String DetailedInfo
  initiateDrawR : Except String Nat
  setRandomR : Except String Nat
  calcPayoutsR : Except String (Option Nat)
  notifyR : Except String Unit

/-- What one single-shot iteration did. -/
structure SSTrace where
  initiateCalls : Nat
  setRandomCalls : Nat
  calcPayoutsCalls : Nat
  notifyAttempts : Nat
  sleepsMs : List Nat
deriving DecidableEq, Repr

def SSTrace.empty : SSTrace := ⟨0, 0, 0, 0, []⟩

/-- Outcome of one iteration of the `while (true)` loop: keep looping after
a sleep, `process.exit(0)`, or an uncaught throw (which the top-level
`.catch` of `bot.js` 495-498 turns into `process.exit(1)`). -/
inductive SSOutcome where
  | cont (sleptMs : Nat)
  | exitZero
  | fatal (msg : String)
deriving DecidableEq, Repr

/-- One iteration of `processSpecificGame`'s loop (`bot.js` 429-479). A
Pending (`status 0`) game triggers `initiateDraw()` unconditionally — the
function never reads a deadline. On `status 2` the notifier is attempted
(its failure is caught) and the process exits 0. -/
def singleShotStep (env : SSEnv) : SSOutcome × SSTrace :=
  match env.detailed with
  | .error msg => (.fatal msg, SSTrace.empty)
  | .ok info =>
    if info.status = 0 then
      match env.initiateDrawR with
      | .ok _ => (.cont 30000, { SSTrace.empty with initiateCalls := 1, sleepsMs := [30000] })
      | .error msg => (.fatal msg, { SSTrace.empty with initiateCalls := 1 })
    else if info.status = 1 then
      if info.randomValue = 0 then
        match env.setRandomR with
        | .ok _ => (.cont 10000, { SSTrace.empty with setRandomCalls := 1, sleepsMs := [10000] })
        | .error msg =>
          if strContains msg "Random number not yet available" then
            (.cont 30000, { SSTrace.empty with setRandomCalls := 1, sleepsMs := [30000] })
          else
            (.fatal msg, { SSTrace.empty with setRandomCalls := 1 })
      else
        match env.calcPayoutsR with
        | .ok _ => (.cont 10000, { SSTrace.empty with calcPayoutsCalls := 1, sleepsMs := [10000] })
        | .error msg => (.fatal msg, { SSTrace.empty with calcPayoutsCalls := 1 })
    else if info.status = 2 then
      (.exitZero, { SSTrace.empty with notifyAttempts := 1 })
    else
      (.cont 0, SSTrace.empty)

/-- `Bool` test: this iteration's read observed the game Completed. -/
def observesCompleted (env : SSEnv) : Bool :=
  match env.detailed with
  | .ok info => info.status = 2
  | .error _ => false

/-- The single-shot loop with its top-level catch, run over a list of
per-iteration environments: `some code` when the process terminated within
the list, `none` when it is still looping. -/
def runSingleShot : List SSEnv → Option Nat
  | [] => none
  | e :: rest =>
    match (singleShotStep e).1 with
    | .exitZero => some 0
    | .fatal _ => some 1
    | .cont _ => runSingleShot rest

/-! ## The single-game bot's cycle: `checkGameFlow` (`part_000` 163-208) -/

/-- External-call results for one `checkGameFlow` invocation. -/
structure FlowEnv where
  detailed : Except String DetailedInfo
  initiateDrawR : Except String Nat
  setRandomR : Except String Nat
  calcPayoutsR : Except String (Option Nat)

/-- Outcome of one `checkGameFlow` invocation: its body is wrapped in a
try/catch that only logs, so an error never escapes; `status 2` calls
`process.exit(0)`. -/
inductive FlowOutcome where
  | done
  | exitZero
  | errorLogged (msg : String)
deriving DecidableEq, Repr

/-- Writes attempted by one `checkGameFlow` invocation. -/
structure FlowTrace where
  initiateCalls : Nat
  setRandomCalls : Nat
  calcPayoutsCalls : Nat
deriving DecidableEq, Repr

/-- `checkGameFlow` (`part_000` 163-208): `status 0` initiates the draw
unconditionally (the comment at `part_000` 181-182 defers the timing gate
to the contract's "Time interval not passed" revert). -/
def checkGameFlow (env : FlowEnv) : FlowOutcome × FlowTrace :=
  match env.detailed with
  | .error msg => (.errorLogged msg, ⟨0, 0, 0⟩)
  | .ok info =>
    if info.status = 0 then
      match env.initiateDrawR with
      | .ok _ => (.done, ⟨1, 0, 0⟩)
      | .error msg => (.errorLogged msg, ⟨1, 0, 0⟩)
    else if info.status = 1 then
      if info.randomValue = 0 then
        match env.setRandomR with
        | .ok _ => (.done, ⟨0, 1, 0⟩)
        | .error msg => (.errorLogged msg, ⟨0, 1, 0⟩)
      else
        match env.calcPayoutsR with
        | .ok _ => (.done, ⟨0, 0, 1⟩)
        | .error msg => (.errorLogged msg, ⟨0, 0, 1⟩)
    else if info.status = 2 then
      (.exitZero, ⟨0, 0, 0⟩)
    else
      (.done, ⟨0, 0, 0⟩)

/-! ## The social-media notifier (`notifyRoundComplete`, `bot.js` 182-223) -/

/-- The Lambda notifier configuration (`bot.js` 23-25): both values come
from the environment and may be absent. -/
structure NotifyConfig where
  lambdaUrl : Option String
  lambdaPassword : Option String

/-- JS falsiness of an optional env string: `undefined` or the empty
string. -/
def jsFalsy : Option String → Bool
  | none => true
  | some s => s = ""

/-- The HTTP response, when a request is performed. -/
structure HttpResponse where
  statusCode : Nat
  body : String

/-- `notifyRoundComplete` (`bot.js` 182-223): when either the Lambda URL or
password is missing the function logs and returns successfully without any
HTTP request; otherwise one POST is made and a 2xx status resolves, anything
else rejects. The second component records whether an HTTP request was
performed. -/
def notifyRoundComplete (cfg : NotifyConfig) (http : Except String HttpResponse) :
    Except String String × Bool :=
  if jsFalsy cfg.lambdaUrl || jsFalsy cfg.lambdaPassword then
    (.ok "", false)
  else
    match http with
    | .error e => (.error e, true)
    | .ok res =>
      if 200 ≤ res.statusCode ∧ res.statusCode < 300 then
        (.ok res.body, true)
      else
        (.error ("HTTP failure " ++ toString res.statusCode ++ ": " ++ res.body), true)

/-- Erase the resolved payload, as the notifier gate only observes
success or failure. -/
def toUnitResult (r : Except String String) : Except String Unit :=
  match r with
  | .ok _ => .ok ()
  | .error e => .error e

/-! ## Multi-cycle notification accounting (for the at-most-once claim) -/

/-- The notifier call resolved. -/
def isOkResult : Except String Unit → Bool
  | .ok _ => true
  | .error _ => false

/-- Successful notifier invocations across a run of completed-game cycles
for id `g`, one notifier outcome per cycle, threading `notifiedGames`
through `notifyGate`. -/
def gateSuccesses (g : Nat) : List (Except String Unit) → List Nat → Nat
  | [], _ => 0
  | r :: rest, notified =>
    (if (!notified.contains g && isOkResult r) = true then 1 else 0)
    + gateSuccesses g rest (notifyGate r g notified).1

/-! ## C8: the configured funding candidates are not ascending -/

/-- C8 (code bug): the claim — and the source's own comment at `part_000`
21-22 ("We'll try them in ascending order") — say the candidate amounts are
ascending, but the configured list `[0.000001, 0.0000005, 0.000005]` ETH
starts with a strictly descending pair: the first candidate (10^12 wei)
is greater than the second (5·10^11 wei). -/
theorem WITNET_FUNDING_ATTEMPTS_first_pair_descends :
    WITNET_FUNDING_ATTEMPTS = [1000000000000, 500000000000, 5000000000000]
    ∧ (WITNET_FUNDING_ATTEMPTS.take 2).Chain' (fun a b => b < a) := by
  exact ⟨rfl, by norm_num [WITNET_FUNDING_ATTEMPTS, List.chain'_cons]⟩

/-! ## C5: the "payouts already calculated" no-op classification -/

/-- C5 counterexample: in the VDF-variant bot (`bot.js` second document,
lines 660-683), a `calculatePayouts` rejection carrying "Payouts already
calculated for this game" does not return a null no-op success — it
terminates the process via `process.exit(0)`, so no subsequent call can be
made. -/
theorem calculatePayouts_vdf_already_calculated_exits :
    calculatePayouts_vdf
        (.error ⟨"Payouts already calculated for this game", none⟩) (.ok 1)
      = (.exitProcess 0, [.sim false]) := by
  decide

/-- C5 (amended): in the funding-retry bots, a `calculatePayouts` rejection
matching the "payouts already calculated" pattern returns the null no-op
success — on the first and, the function being pure, on every subsequent
call — and any other rejection is raised; in the VDF-variant bot the same
rejection instead terminates the process with exit code 0, and its other
rejections are raised. -/
theorem calculatePayouts_already_calculated_noop
    (send : Except RawError Nat) (e : RawError) (n : Nat) :
    (matchesAlreadyCalculated "Payouts already calculated" e = true →
      (calculatePayouts_main (.error e) send).1 = .nullNoop
      ∧ List.replicate n (calculatePayouts_main (.error e) send).1
          = List.replicate n CalcOutcome.nullNoop)
    ∧ (matchesAlreadyCalculated "Payouts already calculated" e = false →
        (calculatePayouts_main (.error e) send).1
          = .raised ("Failed to calculate payouts: " ++ e.message))
    ∧ (matchesAlreadyCalculated "Payouts already calculated for this game" e = true →
        (calculatePayouts_part (.error e) send).1 = .nullNoop)
    ∧ (strContains e.message "Payouts already calculated for this game" = true →
        (calculatePayouts_vdf (.error e) send).1 = .exitProcess 0)
    ∧ (strContains e.message "Payouts already calculated for this game" = false →
        (calculatePayouts_vdf (.error e) send).1
          = .raised ("Failed to calculate payouts: " ++ e.message)) := by
  refine ⟨fun h => ?_, fun h => ?_, fun h => ?_, fun h => ?_, fun h => ?_⟩ <;>
    simp [calculatePayouts_main, calculatePayouts_part, calculatePayouts_vdf,
      simulateThenSend, h]

/-- Concrete run of the no-op classification: an "already calculated"
rejection of the main bot's `calculatePayouts` yields the null no-op on
two consecutive calls, and a timing rejection is raised. -/
theorem calculatePayouts_already_calculated_noop_witness :
    (calculatePayouts_main
        (.error ⟨"reverted: Payouts already calculated", none⟩) (.ok 1)).1
      = CalcOutcome.nullNoop
    ∧ List.replicate 2 (calculatePayouts_main
        (.error ⟨"reverted: Payouts already calculated", none⟩) (.ok 1)).1
      = List.replicate 2 CalcOutcome.nullNoop
    ∧ (calculatePayouts_vdf
        (.error ⟨"Time interval not passed", none⟩) (.ok 1)).1
      = .raised ("Failed to calculate payouts: " ++ "Time interval not passed") := by
  have h1 := (calculatePayouts_already_calculated_noop
    (.ok 1) ⟨"reverted: Payouts already calculated", none⟩ 2).1 (by decide)
  have h2 := (calculatePayouts_already_calculated_noop
    (.ok 1) ⟨"Time interval not passed", none⟩ 2).2.2.2.2 (by decide)
  exact ⟨h1.1, h1.2, h2⟩

/-! ## C7: simulate-before-broadcast -/

/-- C7 counterexample: the funding-retried `initiateDraw` of `bot.js`
104-132 broadcasts via `walletClient.writeContract` with no prior
`simulateContract` call: on an accepted first candidate its ledger trace is
a bare broadcast, which violates the every-send-has-a-prior-successful-sim
predicate. -/
theorem initiateDraw_broadcasts_without_simulation :
    initiateDrawOps (fun _ => .success 9) [10] = [.send]
    ∧ simBeforeSend [LedgerOp.send] = false := by
  decide

/-- C7 (amended): the randomness-setting and payout-calculation writers
(and the VDF-variant writers sharing the same skeleton) simulate before
broadcasting, and a simulation failure short-circuits with no broadcast;
but the funding-retried draw initiation performs only direct broadcasts —
its ledger trace contains no simulation at all. -/
theorem simulate_before_send_policy (sim : Except RawError Unit)
    (send : Except RawError Nat) (e : RawError)
    (exec : Nat → AttemptResult) (cands : List Nat) :
    simBeforeSend (simulateThenSend sim send).2 = true
    ∧ (sim = .error e → (simulateThenSend sim send).2 = [.sim false])
    ∧ simBeforeSend (setRandomAndWinningNumbers sim send).2 = true
    ∧ simBeforeSend (calculatePayouts_main sim send).2 = true
    ∧ simBeforeSend (calculatePayouts_part sim send).2 = true
    ∧ simBeforeSend (calculatePayouts_vdf sim send).2 = true
    ∧ (∀ op ∈ initiateDrawOps exec cands, op = LedgerOp.send) := by
  refine ⟨?_, ?_, ?_, ?_, ?_, ?_, ?_⟩
  · cases sim <;> cases send <;> rfl
  · intro h
    rw [h]
    rfl
  · cases sim <;> cases send <;>
      simp [setRandomAndWinningNumbers, simulateThenSend, simBeforeSend, simBeforeSendAux]
  · cases sim <;> cases send <;>
      simp only [calculatePayouts_main, simulateThenSend] <;>
      first
      | rfl
      | (split <;> rfl)
  · cases sim <;> cases send <;>
      simp only [calculatePayouts_part, simulateThenSend] <;>
      first
      | rfl
      | (split <;> rfl)
  · cases sim <;> cases send <;>
      simp only [calculatePayouts_vdf, simulateThenSend] <;>
      first
      | rfl
      | (split <;> rfl)
  · intro op hop
    obtain ⟨a, _, ha⟩ := List.mem_map.mp hop
    exact ha.symm

/-- Concrete run of the simulate-before-send policy: a failed simulation of
`setRandomAndWinningNumbers` produces no broadcast, and a successful
simulate-then-send trace satisfies the predicate. -/
theorem simulate_before_send_policy_witness :
    (simulateThenSend (.error ⟨"reverted", none⟩) (.ok 3)).2 = [.sim false]
    ∧ simBeforeSend (setRandomAndWinningNumbers (.ok ()) (.ok 3)).2 = true := by
  exact ⟨(simulate_before_send_policy (.error ⟨"reverted", none⟩) (.ok 3)
      ⟨"reverted", none⟩ (fun _ => .success 0) []).2.1 rfl,
    (simulate_before_send_policy (.ok ()) (.ok 3)
      ⟨"reverted", none⟩ (fun _ => .success 0) []).2.2.1⟩

/-! ## C2: the completion-notification gate -/

/-- A cycle that observes the current game Completed and whose notifier
call fails with an HTTP error. -/
def notifyFailEnv : CycleEnv where
  current := .ok ⟨7, 3600⟩
  detailed := fun _ => .ok ⟨2, 0⟩
  initiateDrawR := .error "unused"
  setRandomR := fun _ => .error "unused"
  calcPayoutsR := fun _ => .error "unused"
  notifyR := fun _ => .error "HTTP failure 500"
  currentAfterComplete := .ok ⟨7, 3600⟩

/-- C2 counterexample: when the notification for game 7 fails, `bot.js`
396-405 does not add 7 to `notifiedGames` (the `add` sits after the awaited
call inside the `try`), so the next cycle observing 7 Completed invokes the
notifier again: two consecutive cycles make two notifier attempts for id 7,
and after the failed attempt the id is still unrecorded — against the
claim's "records the id regardless of outcome" and "at most once". -/
theorem failed_notification_retried_next_cycle :
    (checkAndProcessGame notifyFailEnv ⟨none, []⟩).trace.notifyAttempts = [7]
    ∧ (checkAndProcessGame notifyFailEnv ⟨none, []⟩).state.notified = []
    ∧ (checkAndProcessGame notifyFailEnv
        (checkAndProcessGame notifyFailEnv ⟨none, []⟩).state).trace.notifyAttempts = [7] := by
  exact ⟨rfl, rfl, rfl⟩

/-- A notified id makes every later completed-cycle a no-op, so it
contributes no further successful notifications. -/
lemma gateSuccesses_of_contains (g : Nat) (rs : List (Except String Unit))
    (notified : List Nat) (h : notified.contains g = true) :
    gateSuccesses g rs notified = 0 := by
  induction rs generalizing notified with
  | nil => rfl
  | cons r rest ih =>
    unfold gateSuccesses notifyGate
    rw [if_neg (by rw [h]; simp), if_pos h]
    simpa using ih notified h

/-- Across any run of completed-game cycles, at most one notifier call for
a given id succeeds: the first success records the id and every later cycle
is a no-op. -/
lemma gateSuccesses_le_one (g : Nat) (rs : List (Except String Unit))
    (notified : List Nat) :
    gateSuccesses g rs notified ≤ 1 := by
  induction rs generalizing notified with
  | nil => exact Nat.zero_le 1
  | cons r rest ih =>
    unfold gateSuccesses notifyGate
    by_cases h : notified.contains g = true
    · rw [if_neg (by rw [h]; simp), if_pos h]
      simpa using ih notified
    · have hf : notified.contains g = false := by
        cases hc : notified.contains g
        · rfl
        · exact absurd hc h
      cases r with
      | ok u =>
        rw [if_pos (by rw [hf]; simp [isOkResult]), if_neg (by simpa using hf)]
        have h0 : gateSuccesses g rest (g :: notified) = 0 :=
          gateSuccesses_of_contains g rest (g :: notified) (by simp)
        simp [h0]
      | error m =>
        rw [if_neg (by simp [isOkResult]), if_neg (by simpa using hf)]
        simpa using ih notified

/-- C2 (amended): on a cycle observing a game id Completed, an id already in
`notifiedGames` is a no-op; a fresh id waits the fixed 3000 ms settle delay
and invokes the notifier once, and the id is recorded in `notifiedGames` if
and only if that invocation succeeded — a failed notification is logged,
leaves the id unrecorded, and is retried on later completed cycles; across
any run, at most one notifier invocation for a given id succeeds. -/
theorem notification_gate_records_only_success (r : Except String Unit)
    (g : Nat) (notified : List Nat) (rs : List (Except String Unit)) :
    (notified.contains g = true → notifyGate r g notified = (notified, [], []))
    ∧ (notified.contains g = false →
        (notifyGate r g notified).2.1 = [g]
        ∧ (notifyGate r g notified).2.2 = [3000]
        ∧ ((notifyGate r g notified).1.contains g = true ↔ ∃ u, r = .ok u))
    ∧ gateSuccesses g rs notified ≤ 1 := by
  refine ⟨fun h => ?_, fun h => ?_, gateSuccesses_le_one g rs notified⟩
  · unfold notifyGate
    rw [if_pos h]
  · unfold notifyGate
    rw [if_neg (by simpa using h)]
    cases r with
    | ok u => exact ⟨rfl, rfl, by simp⟩
    | error m => exact ⟨rfl, rfl, by rw [h]; simp⟩

/-- Concrete runs of the notification gate: an already-notified id is a
no-op, a fresh id with a succeeding notifier is recorded after one attempt
and a 3000 ms settle delay, and two successful cycles yield at most one
success. -/
theorem notification_gate_records_only_success_witness :
    notifyGate (.error "HTTP failure 500") 7 [7] = ([7], [], [])
    ∧ (notifyGate (.ok ()) 7 []).2.1 = [7]
    ∧ (notifyGate (.ok ()) 7 []).2.2 = [3000]
    ∧ gateSuccesses 7 [.ok (), .ok ()] [] ≤ 1 := by
  have h1 := (notification_gate_records_only_success
    (.error "HTTP failure 500") 7 [7] []).1 (by decide)
  have h2 := (notification_gate_records_only_success
    (.ok ()) 7 [] [.ok (), .ok ()]).2.1 (by decide)
  have h3 := (notification_gate_records_only_success
    (.ok ()) 7 [] [.ok (), .ok ()]).2.2
  exact ⟨h1, h2.1, h2.2.1, h3⟩

/-! ## C10: unconfigured notifier -/

/-- C10: when the Lambda URL or password is missing from the configuration,
`notifyRoundComplete` logs and returns successfully without performing any
HTTP request; the caller's gate therefore records the completed id in
`notifiedGames` as if a notification had been made; and every call under
such a configuration — for the whole process lifetime — performs no HTTP
request, so no notification is ever sent. -/
theorem unconfigured_notifier_sends_nothing (cfg : NotifyConfig)
    (http : Except String HttpResponse) (g : Nat) (notified : List Nat)
    (rs : List (Except String HttpResponse)) :
    ((jsFalsy cfg.lambdaUrl || jsFalsy cfg.lambdaPassword) = true →
      notifyRoundComplete cfg http = (.ok "", false))
    ∧ ((jsFalsy cfg.lambdaUrl || jsFalsy cfg.lambdaPassword) = true →
        notified.contains g = false →
        (notifyGate (toUnitResult (notifyRoundComplete cfg http).1) g notified).1
          = g :: notified)
    ∧ ((jsFalsy cfg.lambdaUrl || jsFalsy cfg.lambdaPassword) = true →
        ∀ h ∈ rs, (notifyRoundComplete cfg h).2 = false) := by
  refine ⟨fun hcfg => ?_, fun hcfg hg => ?_, fun hcfg h _ => ?_⟩
  · unfold notifyRoundComplete
    rw [if_pos hcfg]
  · unfold notifyRoundComplete
    rw [if_pos hcfg]
    rw [show toUnitResult (Except.ok "", false).1 = .ok () from rfl]
    unfold notifyGate
    rw [if_neg (by simpa using hg)]
  · unfold notifyRoundComplete
    rw [if_pos hcfg]

/-- Concrete run with no configured Lambda URL: the notifier succeeds with
no HTTP request and the gate records the completed id. -/
theorem unconfigured_notifier_sends_nothing_witness :
    notifyRoundComplete ⟨none, some "pw"⟩ (.ok ⟨200, "ok"⟩) = (.ok "", false)
    ∧ (notifyGate (toUnitResult
        (notifyRoundComplete ⟨none, some "pw"⟩ (.ok ⟨200, "ok"⟩)).1) 7 []).1 = [7] := by
  have h1 := (unconfigured_notifier_sends_nothing ⟨none, some "pw"⟩
    (.ok ⟨200, "ok"⟩) 7 [] []).1 (by decide)
  have h2 := (unconfigured_notifier_sends_nothing ⟨none, some "pw"⟩
    (.ok ⟨200, "ok"⟩) 7 [] []).2.1 (by decide) (by decide)
  exact ⟨h1, by rw [h2]⟩

/-! ## Helpers for reading off one cycle's final state and trace -/

/-- The controller state a cycle body ends in, throw or no throw (JS
mutations before a throw persist). -/
def outState : Except (String × BotState × CycleTrace) (Nat × BotState × CycleTrace) → BotState
  | .ok (_, s, _) => s
  | .error (_, s, _) => s

/-- The trace a cycle body ends with, throw or no throw. -/
def outTrace : Except (String × BotState × CycleTrace) (Nat × BotState × CycleTrace) → CycleTrace
  | .ok (_, _, t) => t
  | .error (_, _, t) => t

lemma checkAndProcessGame_state (env : CycleEnv) (s : BotState) :
    (checkAndProcessGame env s).state = outState (cycleBody env s)
    ∧ (checkAndProcessGame env s).trace = outTrace (cycleBody env s) := by
  unfold checkAndProcessGame outState outTrace
  cases h : cycleBody env s with
  | ok v => obtain ⟨i, s2, tr⟩ := v; exact ⟨rfl, rfl⟩
  | error v => obtain ⟨m, s2, tr⟩ := v; exact ⟨rfl, rfl⟩

/-- In the Pending/deadline-not-reached branch, the dispatch performs no
write and returns the scheduler's interval. -/
lemma processGame_pending_wait (env : CycleEnv) (ci : CurrentInfo) (n : Nat)
    (s : BotState) (tr : CycleTrace) (info : DetailedInfo)
    (hdet : env.detailed n = .ok info) (hst : info.status = 0)
    (ht : 0 < ci.timeUntilDraw) :
    processGame env ci n s tr
      = .ok (calculateInterval 0 ci.timeUntilDraw info.randomValue, s,
          { tr with target := some n }) := by
  have ht2 : ¬ ci.timeUntilDraw ≤ 0 := not_le.mpr ht
  simp only [processGame, hdet, hst, eq_self_iff_true, if_true, if_neg ht2]

/-- In the Pending/deadline-reached branch, the dispatch calls the funding
retry wrapper exactly once (whether it succeeds or throws). -/
lemma processGame_pending_initiate (env : CycleEnv) (ci : CurrentInfo) (n : Nat)
    (s : BotState) (tr : CycleTrace) (info : DetailedInfo)
    (hdet : env.detailed n = .ok info) (hst : info.status = 0)
    (ht : ci.timeUntilDraw ≤ 0) :
    outTrace (processGame env ci n s tr)
      = { tr with target := some n, initiateCalls := tr.initiateCalls + 1 } := by
  simp only [processGame, hdet, hst, eq_self_iff_true, if_true, if_pos ht]
  cases env.initiateDrawR with
  | ok h => rfl
  | error m => rfl

/-! ## C6: the adaptive scheduler's delay selection -/

/-- A cycle whose first chain read fails. -/
def errorCycleEnv : CycleEnv where
  current := .error "rpc timeout"
  detailed := fun _ => .error "unused"
  initiateDrawR := .error "unused"
  setRandomR := fun _ => .error "unused"
  calcPayoutsR := fun _ => .error "unused"
  notifyR := fun _ => .error "unused"
  currentAfterComplete := .error "unused"

/-- C6: the scheduler selects 60 minutes for Pending 13 h from the deadline,
10 minutes for Pending exactly 1 h out, 5 minutes for Drawing with an unset
seed, 1 minute — the table's shortest delay — for Drawing with a seed, and
any cycle ending in an unclassified error backs off to 60 minutes regardless
of phase. -/
theorem calculateInterval_buckets (t : Int) (rv : Nat) (env : CycleEnv)
    (s : BotState) (msg : String) (s2 : BotState) (tr : CycleTrace) :
    calculateInterval 0 46800 rv = 60
    ∧ calculateInterval 0 3600 rv = 10
    ∧ calculateInterval 1 t 0 = 5
    ∧ (rv ≠ 0 → calculateInterval 1 t rv = 1)
    ∧ (∀ st t2 rv2, 1 ≤ calculateInterval st t2 rv2)
    ∧ (cycleBody env s = .error (msg, s2, tr) →
        checkAndProcessGame env s = ⟨60, s2, tr, true⟩) := by
  refine ⟨?_, ?_, ?_, fun h => ?_, ?_, fun h => ?_⟩
  · norm_num [calculateInterval, INTERVALS_FAR_FROM_DRAW]
  · norm_num [calculateInterval, INTERVALS_CLOSE_TO_DRAW]
  · simp [calculateInterval, INTERVALS_WAITING_FOR_RANDOM]
  · simp [calculateInterval, h, INTERVALS_DRAWING_IN_PROGRESS]
  · intro st t2 rv2
    simp only [calculateInterval]
    split_ifs <;>
      norm_num [INTERVALS_FAR_FROM_DRAW, INTERVALS_APPROACHING_DRAW,
        INTERVALS_CLOSE_TO_DRAW, INTERVALS_VERY_CLOSE,
        INTERVALS_DRAWING_IN_PROGRESS, INTERVALS_WAITING_FOR_RANDOM]
  · unfold checkAndProcessGame
    rw [h]

/-- Concrete scheduler runs: Drawing with a set seed polls at 1 minute, and
a cycle whose current-game read throws backs off to 60 minutes while
keeping the controller state. -/
theorem calculateInterval_buckets_witness :
    calculateInterval 1 0 7 = 1
    ∧ checkAndProcessGame errorCycleEnv ⟨none, []⟩
        = ⟨60, ⟨none, []⟩, CycleTrace.empty, true⟩ := by
  have h1 := (calculateInterval_buckets 0 7 errorCycleEnv ⟨none, []⟩
    "rpc timeout" ⟨none, []⟩ CycleTrace.empty).2.2.2.1 (by decide)
  have h2 := (calculateInterval_buckets 0 7 errorCycleEnv ⟨none, []⟩
    "rpc timeout" ⟨none, []⟩ CycleTrace.empty).2.2.2.2.2 rfl
  exact ⟨h1, h2⟩

/-! ## C4: the Pending-phase dispatch decision, by operating mode -/

/-- A single-shot iteration observing a Pending game. -/
def pendingSSEnv : SSEnv where
  detailed := .ok ⟨0, 0⟩
  initiateDrawR := .ok 5
  setRandomR := .error "unused"
  calcPayoutsR := .error "unused"
  notifyR := .ok ()

/-- A `checkGameFlow` invocation observing a Pending game. -/
def pendingFlowEnv : FlowEnv where
  detailed := .ok ⟨0, 0⟩
  initiateDrawR := .ok 5
  setRandomR := .error "unused"
  calcPayoutsR := .error "unused"

/-- C4 counterexample: single-shot processing of an explicit game id
(`processSpecificGame`, `bot.js` 437-442, and `checkGameFlow`, `part_000`
179-185) submits the InitiateDraw write for every Pending observation —
neither function reads `timeUntilDeadline` at all — so a Pending game whose
deadline is still in the future is not met with AwaitDeadline in these
modes; the timing gate is left to the contract's revert. -/
theorem singleShot_pending_always_initiates :
    (singleShotStep pendingSSEnv).1 = .cont 30000
    ∧ (singleShotStep pendingSSEnv).2.initiateCalls = 1
    ∧ (checkGameFlow pendingFlowEnv).1 = .done
    ∧ (checkGameFlow pendingFlowEnv).2.initiateCalls = 1 := by
  exact ⟨rfl, rfl, rfl, rfl⟩

/-- C4 (amended): in the continuous controller's dispatch, a Pending game
with `timeUntilDeadline > 0` yields AwaitDeadline — no write of any kind is
submitted and the cycle just returns the scheduler's interval — and a
Pending game with `timeUntilDeadline ≤ 0` triggers exactly one InitiateDraw;
in the single-shot modes (`processSpecificGame` and `checkGameFlow`), every
Pending observation triggers InitiateDraw unconditionally, with no deadline
check. -/
theorem pending_decision_by_mode (env : CycleEnv) (s : BotState)
    (ci : CurrentInfo) (info : DetailedInfo) (e2 : SSEnv) (i2 : DetailedInfo)
    (e3 : FlowEnv) (i3 : DetailedInfo) :
    (s.active = none → env.current = .ok ci → env.detailed ci.gameNumber = .ok info →
      info.status = 0 → 0 < ci.timeUntilDraw →
      (checkAndProcessGame env s).errored = false
      ∧ (checkAndProcessGame env s).trace.initiateCalls = 0
      ∧ (checkAndProcessGame env s).trace.setRandomCalls = []
      ∧ (checkAndProcessGame env s).trace.calcPayoutsCalls = []
      ∧ (checkAndProcessGame env s).interval
          = calculateInterval 0 ci.timeUntilDraw info.randomValue)
    ∧ (s.active = none → env.current = .ok ci → env.detailed ci.gameNumber = .ok info →
        info.status = 0 → ci.timeUntilDraw ≤ 0 →
        (checkAndProcessGame env s).trace.initiateCalls = 1)
    ∧ (e2.detailed = .ok i2 → i2.status = 0 →
        (singleShotStep e2).2.initiateCalls = 1)
    ∧ (e3.detailed = .ok i3 → i3.status = 0 →
        (checkGameFlow e3).2.initiateCalls = 1) := by
  refine ⟨fun hact hcur hdet hst ht => ?_, fun hact hcur hdet hst ht => ?_,
    fun hdet hst => ?_, fun hdet hst => ?_⟩
  · have hb : cycleBody env s
        = .ok (calculateInterval 0 ci.timeUntilDraw info.randomValue, s,
            { CycleTrace.empty with target := some ci.gameNumber }) := by
      simp only [cycleBody, hcur, hact]
      exact processGame_pending_wait env ci ci.gameNumber s CycleTrace.empty info hdet hst ht
    have hc : checkAndProcessGame env s
        = ⟨calculateInterval 0 ci.timeUntilDraw info.randomValue, s,
            { CycleTrace.empty with target := some ci.gameNumber }, false⟩ := by
      unfold checkAndProcessGame
      rw [hb]
    rw [hc]
    exact ⟨rfl, rfl, rfl, rfl, rfl⟩
  · have hb : cycleBody env s = processGame env ci ci.gameNumber s CycleTrace.empty := by
      simp only [cycleBody, hcur, hact]
    rw [(checkAndProcessGame_state env s).2, hb,
      processGame_pending_initiate env ci ci.gameNumber s CycleTrace.empty info hdet hst ht]
    rfl
  · simp only [singleShotStep, hdet, hst, if_pos rfl]
    cases e2.initiateDrawR with
    | ok h => rfl
    | error m => rfl
  · simp only [checkGameFlow, hdet, hst, if_pos rfl]
    cases e3.initiateDrawR with
    | ok h => rfl
    | error m => rfl

/-- Concrete Pending dispatches: in continuous mode a game 5 h from its
deadline produces no write and a 30-minute interval, while the single-shot
step on a Pending game performs the draw-initiation write. -/
theorem pending_decision_by_mode_witness :
    (checkAndProcessGame
        ⟨.ok ⟨4, 18000⟩, fun _ => .ok ⟨0, 0⟩, .error "unused",
          fun _ => .error "unused", fun _ => .error "unused",
          fun _ => .error "unused", .error "unused"⟩
        ⟨none, []⟩).trace.initiateCalls = 0
    ∧ (checkAndProcessGame
        ⟨.ok ⟨4, 18000⟩, fun _ => .ok ⟨0, 0⟩, .error "unused",
          fun _ => .error "unused", fun _ => .error "unused",
          fun _ => .error "unused", .error "unused"⟩
        ⟨none, []⟩).interval = 30
    ∧ (singleShotStep pendingSSEnv).2.initiateCalls = 1 := by
  have h1 := (pending_decision_by_mode
    ⟨.ok ⟨4, 18000⟩, fun _ => .ok ⟨0, 0⟩, .error "unused",
      fun _ => .error "unused", fun _ => .error "unused",
      fun _ => .error "unused", .error "unused"⟩
    ⟨none, []⟩ ⟨4, 18000⟩ ⟨0, 0⟩ pendingSSEnv ⟨0, 0⟩ pendingFlowEnv ⟨0, 0⟩).1
    rfl rfl rfl rfl (by norm_num)
  have h2 := (pending_decision_by_mode
    ⟨.ok ⟨4, 18000⟩, fun _ => .ok ⟨0, 0⟩, .error "unused",
      fun _ => .error "unused", fun _ => .error "unused",
      fun _ => .error "unused", .error "unused"⟩
    ⟨none, []⟩ ⟨4, 18000⟩ ⟨0, 0⟩ pendingSSEnv ⟨0, 0⟩ pendingFlowEnv ⟨0, 0⟩).2.2.1
    rfl rfl
  refine ⟨h1.2.1, ?_, h2⟩
  rw [h1.2.2.2.2]
  norm_num [calculateInterval, INTERVALS_APPROACHING_DRAW]

/-! ## C9: process termination semantics -/

/-- A single-shot iteration exits 0 exactly when its read observed the game
Completed: every other branch keeps looping or throws. -/
lemma singleShotStep_exitZero_iff (env : SSEnv) :
    ((singleShotStep env).1 = SSOutcome.exitZero) ↔ observesCompleted env = true := by
  unfold singleShotStep observesCompleted
  cases env.detailed with
  | error m => simp
  | ok info =>
    by_cases h0 : info.status = 0
    · simp only [h0]
      cases env.initiateDrawR <;> simp
    · by_cases h1 : info.status = 1
      · by_cases hrv : info.randomValue = 0
        · simp only [h0, h1, hrv]
          cases env.setRandomR with
          | ok u => simp
          | error m =>
            dsimp only
            by_cases hs : strContains m "Random number not yet available" = true <;>
              simp [hs]
        · simp only [h0, h1, hrv]
          cases env.calcPayoutsR <;> simp
      · by_cases h2 : info.status = 2 <;> simp [h0, h1, h2]

/-- An exit with code 0 can only come from an iteration that observed the
game Completed. -/
lemma runSingleShot_exitZero_mem :
    ∀ envs : List SSEnv, runSingleShot envs = some 0 →
      ∃ x ∈ envs, observesCompleted x = true := by
  intro envs
  induction envs with
  | nil => intro h; exact absurd h (by simp [runSingleShot])
  | cons e rest ih =>
    intro h
    unfold runSingleShot at h
    cases ho : (singleShotStep e).1 with
    | exitZero =>
      exact ⟨e, List.mem_cons_self e rest, (singleShotStep_exitZero_iff e).mp ho⟩
    | fatal m =>
      rw [ho] at h
      simp at h
    | cont d =>
      rw [ho] at h
      obtain ⟨x, hx, hc⟩ := ih h
      exact ⟨x, List.mem_cons_of_mem e hx, hc⟩

/-- Looping iterations followed by a Completed observation exit 0. -/
lemma runSingleShot_reaches_completion :
    ∀ (pre : List SSEnv) (e : SSEnv) (post : List SSEnv),
      (∀ x ∈ pre, ∃ d, (singleShotStep x).1 = .cont d) →
      observesCompleted e = true →
      runSingleShot (pre ++ e :: post) = some 0 := by
  intro pre
  induction pre with
  | nil =>
    intro e post _ hc
    show runSingleShot (e :: post) = some 0
    unfold runSingleShot
    rw [(singleShotStep_exitZero_iff e).mpr hc]
  | cons x pre ih =>
    intro e post hall hc
    obtain ⟨d, hd⟩ := hall x (List.mem_cons_self x pre)
    show runSingleShot (x :: (pre ++ e :: post)) = some 0
    unfold runSingleShot
    rw [hd]
    exact ih e post (fun y hy => hall y (List.mem_cons_of_mem x hy)) hc

/-- C9: a single-shot iteration exits with code 0 exactly when the explicit
game id's state reports Completed (the notifier's failure being caught
first); an iteration ending in an unrecovered error exits the process with
code 1; an exit 0 within a run implies some iteration observed Completed,
and looping iterations followed by a Completed observation do exit 0; and in
continuous Running mode a failed cycle is caught and followed by the longest
(60-minute) delay instead of crashing the process. -/
theorem singleShot_exit_semantics (env e : SSEnv)
    (envs post pre : List SSEnv) (msg : String) (cenv : CycleEnv)
    (s : BotState) (m2 : String) (s2 : BotState) (tr : CycleTrace) :
    ((singleShotStep env).1 = SSOutcome.exitZero ↔ observesCompleted env = true)
    ∧ ((singleShotStep e).1 = .fatal msg → runSingleShot (e :: post) = some 1)
    ∧ (runSingleShot envs = some 0 → ∃ x ∈ envs, observesCompleted x = true)
    ∧ ((∀ x ∈ pre, ∃ d, (singleShotStep x).1 = .cont d) →
        observesCompleted e = true →
        runSingleShot (pre ++ e :: post) = some 0)
    ∧ (cycleBody cenv s = .error (m2, s2, tr) →
        checkAndProcessGame cenv s = ⟨60, s2, tr, true⟩) := by
  refine ⟨singleShotStep_exitZero_iff env, fun h => ?_,
    runSingleShot_exitZero_mem envs,
    runSingleShot_reaches_completion pre e post, fun h => ?_⟩
  · unfold runSingleShot
    rw [h]
  · unfold checkAndProcessGame
    rw [h]

/-- A single-shot iteration observing the game Completed. -/
def completedSSEnv : SSEnv where
  detailed := .ok ⟨2, 5⟩
  initiateDrawR := .error "unused"
  setRandomR := .error "unused"
  calcPayoutsR := .error "unused"
  notifyR := .error "HTTP failure 500"

/-- A single-shot iteration whose chain read throws. -/
def readFailSSEnv : SSEnv where
  detailed := .error "read failed"
  initiateDrawR := .ok 0
  setRandomR := .ok 0
  calcPayoutsR := .ok none
  notifyR := .ok ()

/-- Concrete single-shot runs: a looping Pending iteration followed by a
Completed observation exits 0 (even though its notifier fails), and an
iteration with a failing read exits 1. -/
theorem singleShot_exit_semantics_witness :
    runSingleShot [pendingSSEnv, completedSSEnv] = some 0
    ∧ runSingleShot [readFailSSEnv] = some 1 := by
  have h1 := (singleShot_exit_semantics pendingSSEnv completedSSEnv
    [] [] [pendingSSEnv] "read failed" errorCycleEnv ⟨none, []⟩
    "x" ⟨none, []⟩ CycleTrace.empty).2.2.2.1
    (fun x hx => by
      have hxe : x = pendingSSEnv := by simpa using hx
      exact ⟨30000, by rw [hxe]; rfl⟩)
    (by decide)
  have h2 := (singleShot_exit_semantics pendingSSEnv readFailSSEnv
    [] [] [] "read failed" errorCycleEnv ⟨none, []⟩
    "x" ⟨none, []⟩ CycleTrace.empty).2.1 rfl
  exact ⟨h1, h2⟩


/-! ## C3: the active-draw override -/

/-- A fresh id always produces exactly one notification attempt at the
gate, whether the notifier succeeds or fails. -/
lemma notifyGate_fresh_attempts (r : Except String Unit) (g : Nat)
    (notified : List Nat) (h : notified.contains g = false) :
    (notifyGate r g notified).2.1 = [g] := by
  unfold notifyGate
  rw [if_neg (by simpa using h)]
  cases r with
  | ok u => rfl
  | error m => rfl

/-- While the active game is not Completed, the cycle dispatches on the
active id and leaves the controller state untouched. -/
lemma active_override (env : CycleEnv) (ci : CurrentInfo) (g : Nat)
    (dg : DetailedInfo) (s : BotState) (hact : s.active = some g)
    (hcur : env.current = .ok ci) (hdet : env.detailed g = .ok dg)
    (h2 : dg.status ≠ 2) :
    outState (cycleBody env s) = s
    ∧ (outTrace (cycleBody env s)).target = some g := by
  constructor
  · simp only [cycleBody, hcur, hact, hdet, if_neg h2]
    repeat' split
    all_goals rfl
  · simp only [cycleBody, hcur, hact, hdet, if_neg h2]
    repeat' split
    all_goals rfl

/-- The dispatch on a game either keeps the incoming `activeDrawingGame` or
sets it to the dispatched id, and then only on an InPlay or Drawing
observation of that id. -/
lemma processGame_active_cases (env : CycleEnv) (ci : CurrentInfo) (n : Nat)
    (s : BotState) (tr : CycleTrace) :
    (outState (processGame env ci n s tr)).active = s.active
    ∨ ((outState (processGame env ci n s tr)).active = some n
        ∧ ∃ info, env.detailed n = .ok info ∧ (info.status = 0 ∨ info.status = 1)) := by
  unfold processGame
  cases hd : env.detailed n with
  | error m => exact Or.inl rfl
  | ok info =>
    by_cases h0 : info.status = 0
    · simp only [eq_true h0, if_true]
      by_cases ht : ci.timeUntilDraw ≤ 0
      · rw [if_pos ht]
        cases env.initiateDrawR with
        | ok h => exact Or.inr ⟨rfl, info, rfl, Or.inl h0⟩
        | error m => exact Or.inl rfl
      · rw [if_neg ht]
        exact Or.inl rfl
    · by_cases h1 : info.status = 1
      · simp only [eq_false h0, eq_true h1, if_false, if_true]
        by_cases hrv : info.randomValue = 0
        · rw [if_pos hrv]
          cases env.setRandomR n with
          | ok h => exact Or.inr ⟨rfl, info, rfl, Or.inr h1⟩
          | error m =>
            dsimp only
            by_cases hs : strContains m "Random number not yet available" = true
            · rw [if_pos hs]
              exact Or.inr ⟨rfl, info, rfl, Or.inr h1⟩
            · rw [if_neg hs]
              exact Or.inr ⟨rfl, info, rfl, Or.inr h1⟩
        · rw [if_neg hrv]
          cases env.calcPayoutsR n with
          | ok h => exact Or.inr ⟨rfl, info, rfl, Or.inr h1⟩
          | error m => exact Or.inr ⟨rfl, info, rfl, Or.inr h1⟩
      · by_cases h2 : info.status = 2
        · simp only [eq_false h0, eq_false h1, eq_true h2, if_false, if_true]
          cases env.currentAfterComplete with
          | error m => exact Or.inl rfl
          | ok ci2 => exact Or.inl rfl
        · simp only [eq_false h0, eq_false h1, eq_false h2, if_false]
          exact Or.inl rfl

/-- The dispatch only appends to the incoming notification-attempt trace. -/
lemma processGame_notifyAttempts_mono (env : CycleEnv) (ci : CurrentInfo)
    (n : Nat) (s : BotState) (tr : CycleTrace) :
    ∃ l, (outTrace (processGame env ci n s tr)).notifyAttempts
      = tr.notifyAttempts ++ l := by
  unfold processGame
  cases hd : env.detailed n with
  | error m => exact ⟨[], (List.append_nil _).symm⟩
  | ok info =>
    by_cases h0 : info.status = 0
    · simp only [eq_true h0, if_true]
      by_cases ht : ci.timeUntilDraw ≤ 0
      · rw [if_pos ht]
        cases env.initiateDrawR with
        | ok h => exact ⟨[], (List.append_nil _).symm⟩
        | error m => exact ⟨[], (List.append_nil _).symm⟩
      · rw [if_neg ht]
        exact ⟨[], (List.append_nil _).symm⟩
    · by_cases h1 : info.status = 1
      · simp only [eq_false h0, eq_true h1, if_false, if_true]
        by_cases hrv : info.randomValue = 0
        · rw [if_pos hrv]
          cases env.setRandomR n with
          | ok h => exact ⟨[], (List.append_nil _).symm⟩
          | error m =>
            dsimp only
            by_cases hs : strContains m "Random number not yet available" = true
            · rw [if_pos hs]
              exact ⟨[], (List.append_nil _).symm⟩
            · rw [if_neg hs]
              exact ⟨[], (List.append_nil _).symm⟩
        · rw [if_neg hrv]
          cases env.calcPayoutsR n with
          | ok h => exact ⟨[], (List.append_nil _).symm⟩
          | error m => exact ⟨[], (List.append_nil _).symm⟩
      · by_cases h2 : info.status = 2
        · simp only [eq_false h0, eq_false h1, eq_true h2, if_false, if_true]
          cases env.currentAfterComplete with
          | error m => exact ⟨(notifyGate (env.notifyR n) n s.notified).2.1, rfl⟩
          | ok ci2 => exact ⟨(notifyGate (env.notifyR n) n s.notified).2.1, rfl⟩
        · simp only [eq_false h0, eq_false h1, eq_false h2, if_false]
          exact ⟨[], (List.append_nil _).symm⟩

/-- Once the active game is observed Completed, the reference to it is
dropped for good: whatever the rest of the cycle does, the ending
`activeDrawingGame` is not the completed id, and a notification attempt for
it was dispatched this cycle unless one was already recorded. -/
lemma active_cleared_on_completion (env : CycleEnv) (ci : CurrentInfo)
    (g : Nat) (dg : DetailedInfo) (s : BotState) (hact : s.active = some g)
    (hcur : env.current = .ok ci) (hdet : env.detailed g = .ok dg)
    (h2 : dg.status = 2) :
    (outState (cycleBody env s)).active ≠ some g
    ∧ (g ∈ s.notified ∨ g ∈ (outTrace (cycleBody env s)).notifyAttempts) := by
  have hb : cycleBody env s
      = processGame env ci ci.gameNumber
          ⟨none, (notifyGate (env.notifyR g) g s.notified).1⟩
          { CycleTrace.empty with
            notifyAttempts := (notifyGate (env.notifyR g) g s.notified).2.1,
            settleSleepsMs := (notifyGate (env.notifyR g) g s.notified).2.2 } := by
    simp only [cycleBody, hcur, hact, hdet, if_pos h2]
  constructor
  · rw [hb]
    rcases processGame_active_cases env ci ci.gameNumber
        ⟨none, (notifyGate (env.notifyR g) g s.notified).1⟩
        { CycleTrace.empty with
          notifyAttempts := (notifyGate (env.notifyR g) g s.notified).2.1,
          settleSleepsMs := (notifyGate (env.notifyR g) g s.notified).2.2 } with
      hkeep | ⟨hset, info, hdinfo, hst⟩
    · rw [hkeep]
      simp
    · rw [hset]
      intro hcontra
      have hgg : ci.gameNumber = g := Option.some.inj hcontra
      rw [hgg, hdet] at hdinfo
      have hinfo : dg = info := by injection hdinfo
      subst hinfo
      rcases hst with h0 | h1
      · omega
      · omega
  · by_cases hg : s.notified.contains g = true
    · exact Or.inl (by simpa using hg)
    · have hgf : s.notified.contains g = false := by
        cases hc : s.notified.contains g
        · rfl
        · exact absurd hc hg
      right
      rw [hb]
      obtain ⟨l, hl⟩ := processGame_notifyAttempts_mono env ci ci.gameNumber
        ⟨none, (notifyGate (env.notifyR g) g s.notified).1⟩
        { CycleTrace.empty with
          notifyAttempts := (notifyGate (env.notifyR g) g s.notified).2.1,
          settleSleepsMs := (notifyGate (env.notifyR g) g s.notified).2.2 }
      rw [hl]
      have hfresh := notifyGate_fresh_attempts (env.notifyR g) g s.notified hgf
      simp [hfresh]

/-- The successful-initiation branch records the initiated id as the active
game. -/
lemma initiation_sets_active (env : CycleEnv) (ci : CurrentInfo)
    (info : DetailedInfo) (s : BotState) (h : Nat) (hact : s.active = none)
    (hcur : env.current = .ok ci) (hdet : env.detailed ci.gameNumber = .ok info)
    (hst : info.status = 0) (ht : ci.timeUntilDraw ≤ 0)
    (hinit : env.initiateDrawR = .ok h) :
    (outState (cycleBody env s)).active = some ci.gameNumber := by
  simp only [cycleBody, hcur, hact, processGame, hdet, hst, eq_self_iff_true,
    if_true, if_pos ht, hinit]
  rfl

/-- The active games stay put over a whole run of cycles that observe them
still drawing. -/
lemma active_persists_run :
    ∀ (envs : List CycleEnv) (s : BotState) (g : Nat), s.active = some g →
      (∀ e ∈ envs, ∃ ci dg, e.current = .ok ci ∧ e.detailed g = .ok dg ∧ dg.status ≠ 2) →
      (runCycles envs s).active = some g := by
  intro envs
  induction envs with
  | nil => intro s g h _; exact h
  | cons e rest ih =>
    intro s g h hall
    obtain ⟨ci, dg, hcur, hdet, h2⟩ := hall e (List.mem_cons_self e rest)
    have hstep : (checkAndProcessGame e s).state = s := by
      rw [(checkAndProcessGame_state e s).1]
      exact (active_override e ci g dg s h hcur hdet h2).1
    show (runCycles rest (checkAndProcessGame e s).state).active = some g
    rw [hstep]
    exact ih s g h (fun y hy => hall y (List.mem_cons_of_mem e hy))

/-- C3: a successful draw initiation for a game sets `activeDrawingGame` to
that id; while it is set and the id is not yet observed Completed, every
dispatch cycle evaluates the detailed state of that id — whatever id the
current pointer reports — and preserves the reference, including over whole
runs of such cycles; and on the cycle first observing the id Completed the
reference is dropped (never re-pointing at that id), with a notification
attempt dispatched in that cycle unless one was already recorded in
`notifiedGames`. -/
theorem activeDrawingGame_tracking (env : CycleEnv) (s : BotState)
    (g h : Nat) (ci : CurrentInfo) (info dg : DetailedInfo)
    (envs : List CycleEnv) :
    (s.active = none → env.current = .ok ci → env.detailed ci.gameNumber = .ok info →
      info.status = 0 → ci.timeUntilDraw ≤ 0 → env.initiateDrawR = .ok h →
      (checkAndProcessGame env s).state.active = some ci.gameNumber)
    ∧ (s.active = some g → env.current = .ok ci → env.detailed g = .ok dg →
        dg.status ≠ 2 →
        (checkAndProcessGame env s).trace.target = some g
        ∧ (checkAndProcessGame env s).state.active = some g)
    ∧ (s.active = some g →
        (∀ e ∈ envs, ∃ ci2 dg2, e.current = .ok ci2 ∧ e.detailed g = .ok dg2
          ∧ dg2.status ≠ 2) →
        (runCycles envs s).active = some g)
    ∧ (s.active = some g → env.current = .ok ci → env.detailed g = .ok dg →
        dg.status = 2 →
        (checkAndProcessGame env s).state.active ≠ some g
        ∧ (g ∈ s.notified ∨ g ∈ (checkAndProcessGame env s).trace.notifyAttempts)) := by
  refine ⟨fun hact hcur hdet hst ht hinit => ?_,
    fun hact hcur hdet h2 => ?_, active_persists_run envs s g,
    fun hact hcur hdet h2 => ?_⟩
  · rw [(checkAndProcessGame_state env s).1]
    exact initiation_sets_active env ci info s h hact hcur hdet hst ht hinit
  · have ho := active_override env ci g dg s hact hcur hdet h2
    refine ⟨?_, ?_⟩
    · rw [(checkAndProcessGame_state env s).2]
      exact ho.2
    · rw [(checkAndProcessGame_state env s).1, ho.1]
      exact hact
  · have hc := active_cleared_on_completion env ci g dg s hact hcur hdet h2
    refine ⟨?_, ?_⟩
    · rw [(checkAndProcessGame_state env s).1]
      exact hc.1
    · rw [(checkAndProcessGame_state env s).2]
      exact hc.2

/-- Concrete override run: with game 42 still Drawing as the active draw and
the pointer already at 43, the cycle dispatches on 42 and keeps it active;
once 42 is Completed the reference moves off 42 with a notification attempt
dispatched. -/
theorem activeDrawingGame_tracking_witness :
    (checkAndProcessGame
        ⟨.ok ⟨43, 3600⟩, fun n => if n = 42 then .ok ⟨1, 0⟩ else .ok ⟨0, 3600⟩,
          .error "unused", fun _ => .ok 9, fun _ => .ok none,
          fun _ => .ok (), .ok ⟨43, 3600⟩⟩
        ⟨some 42, []⟩).trace.target = some 42
    ∧ (checkAndProcessGame
        ⟨.ok ⟨43, 3600⟩, fun n => if n = 42 then .ok ⟨1, 0⟩ else .ok ⟨0, 3600⟩,
          .error "unused", fun _ => .ok 9, fun _ => .ok none,
          fun _ => .ok (), .ok ⟨43, 3600⟩⟩
        ⟨some 42, []⟩).state.active = some 42
    ∧ (checkAndProcessGame
        ⟨.ok ⟨43, 3600⟩, fun n => if n = 42 then .ok ⟨2, 5⟩ else .ok ⟨0, 3600⟩,
          .error "unused", fun _ => .ok 9, fun _ => .ok none,
          fun _ => .ok (), .ok ⟨43, 3600⟩⟩
        ⟨some 42, []⟩).trace.notifyAttempts = [42] := by
  have h1 := (activeDrawingGame_tracking
    ⟨.ok ⟨43, 3600⟩, fun n => if n = 42 then .ok ⟨1, 0⟩ else .ok ⟨0, 3600⟩,
      .error "unused", fun _ => .ok 9, fun _ => .ok none,
      fun _ => .ok (), .ok ⟨43, 3600⟩⟩
    ⟨some 42, []⟩ 42 0 ⟨43, 3600⟩ ⟨1, 0⟩ ⟨1, 0⟩ []).2.1
    rfl rfl (by rfl) (by norm_num)
  exact ⟨h1.1, h1.2, rfl⟩

end EatThePie
